import Mathlib

/-
Verification of the growable-buffer engine of this repository against its
specification.  Two source variants are embedded:

* namespace `Dya`  — `src/dynamic array/dyarray.c` (with `dyarray.h`);
* namespace `DyaH` — the self-contained variant in `src/dya.h`.

A buffer is one allocation holding a `(capacity, size)` header immediately
before the data region; the user-visible handle points at the first data
byte and may be NULL (the empty buffer).  The embedding models a handle as
`Option Buf`: `none` is the NULL handle, `some b` a live allocation whose
header fields are `b.hcap`, `b.hsize` and whose data region is the byte
list `b.data` (one `Nat` per byte, length = the allocated data size).

Machine integers (`size_t`, width 64) are `Nat` with explicit `% WORD`
at the operations where C unsigned arithmetic can wrap.  Fallible steps
return `Except CErr _`; undefined behaviour (null dereference, writes
through a dangling pointer, out-of-bounds moves) is surfaced as an error
value so theorems can talk about it.  The allocator is the injected
dependency of the spec: a predicate saying which request sizes it can
satisfy.

Both embeddings are faithful to their sources at every branch.  In
particular dyarray.c's `dya_header` is embedded exactly as written, with
its null-guard ternary inverted relative to its own comment (claim C1):
a live handle reads the ZERO header and a NULL handle dereferences the
NULL base pointer.  Every composite dyarray.c operation below inherits
that behaviour, as the real program does.
-/

namespace Model

/-- Width of `size_t` (the code targets 64-bit platforms; `2 * sizeof(size_t)`
is the header offset 16). -/
def WORD : Nat := 2 ^ 64

def SIZE_MAX : Nat := WORD - 1

/-- The bound `SIZE_MAX / 2` used by `dya_check_size_and_cap` in dyarray.c. -/
def HALF : Nat := SIZE_MAX / 2

/-- Header size: `2 * sizeof(size_t)` bytes (`DYA_OFFSET` / `DYA_OFFSET_`). -/
def DYA_OFFSET : Nat := 16

/-- Value of a byte the allocator hands out uninitialized (realloc'd tail or a
fresh block).  Any fixed nonzero value works; zero is avoided so that a proof
of "all bytes are zero" can only come from the code's own memset. -/
def junkByte : Nat := 170

/-- Uninitialized header field of a freshly malloc'd block. -/
def junkField : Nat := 43690

/-- A live allocation: the two header fields stored before the data, and the
data region itself (`data.length` bytes were allocated for data). -/
structure Buf where
  hcap : Nat
  hsize : Nat
  data : List Nat
deriving DecidableEq, Repr

/-- A handle: NULL or a live allocation. -/
abbrev Ptr := Option Buf

/-- Failure/undefined-behaviour outcomes of a call. -/
inductive CErr where
  /-- an `assert` in `dya_check_size_and_cap` fired (message "Capacity overflow!") -/
  | assertFail
  /-- dereference through the NULL base pointer -/
  | nullDeref
  /-- the allocator returned NULL; the code offsets it by `DYA_OFFSET` and the
  caller immediately stores the header through the resulting non-null garbage
  pointer — undefined behaviour, surfaced at the reallocation step -/
  | wildPtr
  /-- `memmove`/`memset` touching bytes outside the allocation -/
  | oob
deriving DecidableEq, Repr

/-- The injected allocator dependency: which request sizes it can satisfy. -/
abbrev Alloc := Nat → Bool

/-- Writes `src` at byte offset `off` of the handle's data region
(`memmove((char*)arr + off, src, src.length)`).  A zero-length move on the
NULL handle is modelled as a no-op (the code reaches `memmove(NULL, p, 0)`,
which has no effect in practice). -/
def memmove (arr : Ptr) (off : Nat) (src : List Nat) : Except CErr Ptr :=
  match arr with
  | none => if src.length = 0 then .ok none else .error .nullDeref
  | some b =>
    if off + src.length ≤ b.data.length then
      .ok (some { b with data := b.data.take off ++ src ++ b.data.drop (off + src.length) })
    else .error .oob

/-- Zeroes the first `k` bytes of the data region (`memset(arr, 0, k)`),
returning its first argument as `memset` does.  `memset(NULL, 0, 0)` is
modelled as a no-op. -/
def memset_zero (arr : Ptr) (k : Nat) : Except CErr Ptr :=
  match arr with
  | none => if k = 0 then .ok none else .error .nullDeref
  | some b =>
    if k ≤ b.data.length then
      .ok (some { b with data := List.replicate k 0 ++ b.data.drop k })
    else .error .oob

/-- C conversion of a signed `ptrdiff_t` to `size_t` (two's complement). -/
def toSizeT (d : Int) : Nat := (d % (WORD : Int)).toNat

/-- Observer: the stored capacity field (0 for NULL). -/
def capOf : Ptr → Nat
  | none => 0
  | some b => b.hcap

/-- Observer: the bytes the buffer currently considers live
(the first `size` bytes of the data region). -/
def liveBytes : Ptr → List Nat
  | none => []
  | some b => b.data.take b.hsize

/-- Observer: how many data bytes the allocation actually holds. -/
def dataLen : Ptr → Nat
  | none => 0
  | some b => b.data.length

end Model

namespace Dya

open Model

/- ===== embedding of src/dynamic array/dyarray.c ===== -/

/-- `dya_zmax` of dyarray.c. -/
def dya_zmax (a b : Nat) : Nat := if a > b then a else b

/-- `dya_zmin` of dyarray.c. -/
def dya_zmin (a b : Nat) : Nat := if a < b then a else b

/-- The header struct of dyarray.c (`cap` field first, then `size`). -/
structure DyaHeader where
  cap : Nat
  size : Nat
deriving DecidableEq, Repr

/-- Faithful embedding of dyarray.c's
`return arr ? (DyaHeader) { 0 } : *dya_base_ptr((void*)arr);` —
as written, a non-null handle yields the zero header and a NULL handle
dereferences `dya_base_ptr(NULL) = NULL` (undefined behaviour).  This is the
opposite of the function's own comment "Returns a zero-initialized header on
NULL."; the repository's other variant (`dya.h`) checks the condition the
other way round.  Settled as claim C1's code bug. -/
def dya_header_raw : Ptr → Except CErr DyaHeader
  | some _ => .ok ⟨0, 0⟩
  | none => .error .nullDeref

/-- `dya_size` of dyarray.c as written (it is `dya_header(arr).size`, so it
inherits the inverted ternary of `dya_header_raw`). -/
def dya_size_raw (arr : Ptr) : Except CErr Nat := (dya_header_raw arr).map (·.size)

/-- The header read used by every composite operation below: the same
faithful (inverted) function as `dya_header_raw`, under the source's name. -/
def dya_header : Ptr → Except CErr DyaHeader := dya_header_raw

/-- `dya_size` as used by the composite operations:
`dya_header(arr).size` — under the inverted ternary this reads 0 for every
live handle and dereferences NULL for the NULL handle. -/
def dya_size (arr : Ptr) : Except CErr Nat := (dya_header arr).map (·.size)

/-- `dya_check_size_and_cap(size, cap)`:
`assert(size <= cap && cap <= SIZE_MAX / 2)`. -/
def dya_check_size_and_cap (size cap : Nat) : Except CErr Unit :=
  if size ≤ cap ∧ cap ≤ HALF then .ok () else .error .assertFail

/-- `dya_growth`: `(cap ? dya_zmin(64, (cap * 3 + 1) / 2) : 0)` with the
multiplication performed in `size_t`. -/
def dya_growth (cap : Nat) : Nat :=
  if cap ≠ 0 then dya_zmin 64 (((cap * 3 + 1) % WORD) / 2) else 0

/-- `dya_set_header`: asserts the new header, does nothing on NULL, else
stores both fields.  (It performs no header read, so the inverted ternary
does not affect it.) -/
def dya_set_header (arr : Ptr) (nh : DyaHeader) : Except CErr Ptr := do
  dya_check_size_and_cap nh.size nh.cap
  match arr with
  | none => pure none
  | some b => pure (some { b with hsize := nh.size, hcap := nh.cap })

/-- `dya_set_size_without_growing`: reads the (inverted) header for the
capacity — the assert's argument, so a NULL handle dereferences NULL first —
asserts `new_size` against it, does nothing on NULL, else stores the size
field. -/
def dya_set_size_without_growing (arr : Ptr) (new_size : Nat) : Except CErr Ptr := do
  let header ← dya_header arr
  dya_check_size_and_cap new_size header.cap
  match arr with
  | none => pure none
  | some b => pure (some { b with hsize := new_size })

/-- `dya_realloc`: asserts the capacity bound, returns NULL for a zero
capacity, else calls the injected allocator for `cap + DYA_OFFSET` bytes.
On success the allocator preserves the header and the first
`min(old, new)` data bytes and the new tail is uninitialized; a fresh block
(reallocating from NULL) is wholly uninitialized.  On allocator failure the
C code returns `NULL + DYA_OFFSET` and its only caller immediately writes
the header through that garbage pointer, which is surfaced here as
`CErr.wildPtr`.  (`dya_base_ptr` is null-guarded in the source, so this
function performs no header read.) -/
def dya_realloc (alloc : Alloc) (ptr : Ptr) (cap : Nat) : Except CErr Ptr := do
  dya_check_size_and_cap 0 cap
  if cap = 0 then
    pure none
  else if alloc ((cap + DYA_OFFSET) % WORD) then
    match ptr with
    | none => pure (some ⟨junkField, junkField, List.replicate cap junkByte⟩)
    | some b =>
      pure (some ⟨b.hcap, b.hsize,
        b.data.take cap ++ List.replicate (cap - b.data.length) junkByte⟩)
  else
    .error .wildPtr

/-- `dya_reserve`: reads the (inverted) header — NULL crashes, a live handle
reads `(0, 0)` whatever is stored — returns the handle unchanged when
`size + add_capacity <= cap` holds for the values read (sum wrapping in
`size_t`), else grows to `dya_zmax(size + add_capacity, dya_growth(cap))`,
reallocates, and rewrites the header with the new capacity and the size
that was read. -/
def dya_reserve (alloc : Alloc) (arr : Ptr) (add_capacity : Nat) : Except CErr Ptr := do
  let header ← dya_header arr
  if (header.size + add_capacity) % WORD ≤ header.cap then
    pure arr
  else
    let newCap := dya_zmax ((header.size + add_capacity) % WORD) (dya_growth header.cap)
    let arr ← dya_realloc alloc arr newCap
    dya_set_header arr ⟨newCap, header.size⟩

/-- `dya_set_size`: reads the (inverted) header's capacity, reserves
`new_size - cap` additional capacity when `new_size > cap`, then stores the
size field through `dya_set_size_without_growing`. -/
def dya_set_size (alloc : Alloc) (arr : Ptr) (new_size : Nat) : Except CErr Ptr := do
  let header ← dya_header arr
  let cap := header.cap
  let arr ← if new_size > cap then dya_reserve alloc arr (new_size - cap) else pure arr
  dya_set_size_without_growing arr new_size

/-- `dya_add_size`: `dya_set_size(arr, dya_size(arr) + (size_t)add_size)`
with the signed delta converted to `size_t` and the sum wrapping; the
`dya_size` read goes through the inverted header. -/
def dya_add_size (alloc : Alloc) (arr : Ptr) (add_size : Int) : Except CErr Ptr := do
  let size ← dya_size arr
  dya_set_size alloc arr ((size + toSizeT add_size) % WORD)

/-- `dya_append`: returns the handle unchanged when the source pointer is
NULL or the byte count is zero; otherwise asserts the count, grows the size
by it, and copies the bytes to offset `dya_size(arr) - size` (that
`dya_size` read also goes through the inverted header).  Reading `size`
bytes from a shorter source is out of bounds. -/
def dya_append (alloc : Alloc) (arr : Ptr) (size : Nat) (other : Option (List Nat)) :
    Except CErr Ptr :=
  match other with
  | none => .ok arr
  | some bs =>
    if size = 0 then .ok arr
    else do
      dya_check_size_and_cap 0 size
      let arr ← dya_add_size alloc arr (size : Int)
      let sz ← dya_size arr
      if size ≤ bs.length then
        memmove arr (sz - size) (bs.take size)
      else .error .oob

/-- `dya_alloc`: returns NULL when `n` or `row_size` is zero, else sets the
size of the NULL handle to `n * row_size` (product wrapping in `size_t`)
and zero-fills `dya_size(arr)` bytes.  The very first step of
`dya_set_size` on the NULL handle is the inverted header read, which
dereferences NULL. -/
def dya_alloc (alloc : Alloc) (n row_size : Nat) : Except CErr Ptr := do
  if n = 0 ∨ row_size = 0 then
    pure none
  else
    let arr ← dya_set_size alloc none ((n * row_size) % WORD)
    let sz ← dya_size arr
    memset_zero arr sz

/-- One mutating public call made on a buffer handle. -/
inductive Op where
  | reserve (k : Nat)
  | set_size (n : Nat)
  | add_size (d : Int)
  | append (sz : Nat) (src : Option (List Nat))
deriving Repr

/-- Performs one mutating call on a handle. -/
def step (alloc : Alloc) (arr : Ptr) : Op → Except CErr Ptr
  | .reserve k => dya_reserve alloc arr k
  | .set_size n => dya_set_size alloc arr n
  | .add_size d => dya_add_size alloc arr d
  | .append sz src => dya_append alloc arr sz src

/-- Performs a sequence of mutating calls, threading the returned handle. -/
def run (alloc : Alloc) (arr : Ptr) : List Op → Except CErr Ptr
  | [] => .ok arr
  | op :: ops => step alloc arr op >>= fun a => run alloc a ops

end Dya

namespace DyaH

open Model

/- ===== embedding of the self-contained variant src/dya.h ===== -/

/-- `dya_size` of dya.h: 0 on NULL, else the `[-2]` field. -/
def dya_size : Ptr → Nat
  | none => 0
  | some b => b.hsize

/-- `dya_cap` of dya.h: 0 on NULL, else the `[-1]` field. -/
def dya_cap : Ptr → Nat
  | none => 0
  | some b => b.hcap

/-- `dya_set_size` of dya.h: no-op on NULL, else stores the size field. -/
def dya_set_size (arr : Ptr) (size : Nat) : Ptr :=
  match arr with
  | none => none
  | some b => some { b with hsize := size }

/-- `dya_set_cap` of dya.h: no-op on NULL, else stores the capacity field. -/
def dya_set_cap (arr : Ptr) (cap : Nat) : Ptr :=
  match arr with
  | none => none
  | some b => some { b with hcap := cap }

/-- `dya_max_` of dya.h. -/
def dya_max_ (a b : Nat) : Nat := if a > b then a else b

/-- `dya_realloc_` of dya.h: requests `size + DYA_OFFSET_` bytes from the
allocator with no checks of any kind.  On failure the C code returns
`NULL + DYA_OFFSET_` and the caller immediately stores the header fields
through it (undefined behaviour, surfaced as `CErr.wildPtr`). -/
def dya_realloc_ (alloc : Alloc) (ptr : Ptr) (size : Nat) : Except CErr Ptr :=
  if alloc ((size + DYA_OFFSET) % WORD) then
    match ptr with
    | none => .ok (some ⟨junkField, junkField, List.replicate size junkByte⟩)
    | some b =>
      .ok (some ⟨b.hcap, b.hsize,
        b.data.take size ++ List.replicate (size - b.data.length) junkByte⟩)
  else
    .error .wildPtr

/-- `dya_reserve` of dya.h: no-op when `size + add_size <= cap` (sum wrapping
in `size_t`), else grows to `dya_max_(size + add_size, cap * 2)`, reallocates
and stores the new capacity and the old size. -/
def dya_reserve (alloc : Alloc) (arr : Ptr) (add_size : Nat) : Except CErr Ptr := do
  let cap := dya_cap arr
  let size := dya_size arr
  if (size + add_size) % WORD ≤ cap then
    pure arr
  else
    let new_cap := dya_max_ ((size + add_size) % WORD) ((cap * 2) % WORD)
    let arr ← dya_realloc_ alloc arr new_cap
    pure (dya_set_size (dya_set_cap arr new_cap) size)

/-- `dya_append` of dya.h: returns the handle unchanged when the source
pointer is NULL, else reserves `size` bytes, copies them at offset
`dya_size(arr)` and adds `size` to the size field. -/
def dya_append (alloc : Alloc) (arr : Ptr) (size : Nat) (other : Option (List Nat)) :
    Except CErr Ptr :=
  match other with
  | none => .ok arr
  | some bs => do
    let arr ← dya_reserve alloc arr size
    let arr ←
      if size ≤ bs.length then memmove arr (dya_size arr) (bs.take size)
      else .error .oob
    pure (dya_set_size arr ((dya_size arr + size) % WORD))

/-- `dya_alloc` of dya.h: reserves `n * row_size` bytes on a NULL handle
(product wrapping in `size_t`), sets the size to the resulting capacity and
zero-fills that many bytes. -/
def dya_alloc (alloc : Alloc) (n row_size : Nat) : Except CErr Ptr := do
  let arr ← dya_reserve alloc none ((n * row_size) % WORD)
  let arr := dya_set_size arr (dya_cap arr)
  memset_zero arr (dya_size arr)

end DyaH

deriving instance DecidableEq for Except

/- ===== helper lemmas ===== -/

namespace Model

theorem bind_ok {ε α β : Type} (a : α) (f : α → Except ε β) :
    (Except.ok a : Except ε α) >>= f = f a := rfl

theorem bind_error {ε α β : Type} (e : ε) (f : α → Except ε β) :
    (Except.error e : Except ε α) >>= f = .error e := rfl

theorem pure_eq_ok {ε α : Type} (a : α) : (pure a : Except ε α) = .ok a := rfl

theorem half_lt_word : HALF < WORD := by decide

theorem mod_word_id {a : Nat} (h : a < WORD) : a % WORD = a := Nat.mod_eq_of_lt h

end Model

namespace Dya

open Model

theorem growth_zero : dya_growth 0 = 0 := rfl

theorem dya_zmax_zero (a : Nat) : dya_zmax a 0 = a := by
  unfold dya_zmax; split <;> omega

theorem check_pos {s c : Nat} (h1 : s ≤ c) (h2 : c ≤ HALF) :
    dya_check_size_and_cap s c = .ok () := by
  unfold dya_check_size_and_cap; rw [if_pos ⟨h1, h2⟩]

/-- When growth is needed and the injected allocator cannot satisfy the
request, `dya_realloc` does not return an error result in the C code: it
returns `NULL + DYA_OFFSET`, and the caller's header store through it is
undefined behaviour (`CErr.wildPtr` in the embedding). -/
theorem realloc_alloc_fail {alloc : Alloc} {ptr : Ptr} {cap : Nat} (h0 : cap ≠ 0)
    (hH : cap ≤ HALF) (ha : alloc ((cap + DYA_OFFSET) % WORD) = false) :
    dya_realloc alloc ptr cap = .error CErr.wildPtr := by
  unfold dya_realloc
  rw [check_pos (Nat.zero_le _) hH, bind_ok, if_neg h0, if_neg (by simp [ha])]

end Dya

namespace DyaH

open Model

theorem dya_max_eq (a b : Nat) : dya_max_ a b = max a b := by
  unfold dya_max_; split <;> omega

theorem dya_max_zero (a : Nat) : dya_max_ a 0 = a := by
  unfold dya_max_; split <;> omega

/-- dya.h's reserve is a no-op returning the same handle whenever the
wrapped sum fits the stored capacity. -/
theorem hreserve_noop {alloc : Alloc} {arr : Ptr} {k : Nat}
    (h : (dya_size arr + k) % WORD ≤ dya_cap arr) :
    dya_reserve alloc arr k = .ok arr := by
  unfold dya_reserve
  dsimp only
  rw [if_pos h]
  rfl

/-- Reserving `0 < ns < 2^64` bytes on the NULL handle with an always-willing
allocator yields a fresh uninitialized block of capacity exactly `ns`
(`cap * 2` contributes nothing from capacity 0). -/
theorem hreserve_grow_none {ns : Nat} (h0 : 0 < ns) (hW : ns < WORD) :
    dya_reserve (fun _ => true) none ns
      = .ok (some ⟨ns, 0, List.replicate ns junkByte⟩) := by
  unfold dya_reserve
  dsimp only
  rw [show dya_cap (none : Ptr) = 0 from rfl, show dya_size (none : Ptr) = 0 from rfl,
    Nat.zero_add, mod_word_id hW]
  rw [if_neg (by omega)]
  rw [show (0 * 2) % WORD = 0 from rfl, dya_max_zero]
  unfold dya_realloc_
  rw [if_pos rfl, bind_ok]
  rfl

/-- A successful `dya_realloc_` always hands back a live (non-NULL) block. -/
theorem hrealloc_ok_shape {alloc : Alloc} {ptr a : Ptr} {size : Nat}
    (h : dya_realloc_ alloc ptr size = .ok a) : ∃ x : Buf, a = some x := by
  unfold dya_realloc_ at h
  split at h
  · cases ptr with
    | none => exact ⟨_, (Except.ok.inj h).symm⟩
    | some b => exact ⟨_, (Except.ok.inj h).symm⟩
  · exact Except.noConfusion h

/-- Anatomy of a successful dya.h `dya_reserve`: either the wrapped request
fit the stored capacity and the handle is returned untouched, or the buffer
was grown to `dya_max_(wrapped request, cap * 2)` with the original size
kept. -/
theorem hreserve_ok_cases {alloc : Alloc} {arr p : Ptr} {k : Nat}
    (h : dya_reserve alloc arr k = .ok p) :
    ((dya_size arr + k) % WORD ≤ dya_cap arr ∧ p = arr) ∨
    (dya_cap arr < (dya_size arr + k) % WORD ∧
      ∃ d : List Nat,
        p = some ⟨dya_max_ ((dya_size arr + k) % WORD) ((dya_cap arr * 2) % WORD),
                 dya_size arr, d⟩) := by
  unfold dya_reserve at h
  dsimp only at h
  split at h
  · rename_i hg
    rw [pure_eq_ok] at h
    exact Or.inl ⟨hg, (Except.ok.inj h).symm⟩
  · rename_i hg
    cases hre : dya_realloc_ alloc arr
        (dya_max_ ((dya_size arr + k) % WORD) ((dya_cap arr * 2) % WORD)) with
    | error e => rw [hre, bind_error] at h; exact Except.noConfusion h
    | ok a =>
      rw [hre, bind_ok] at h
      obtain ⟨x, rfl⟩ := hrealloc_ok_shape hre
      rw [pure_eq_ok] at h
      refine Or.inr ⟨by omega, x.data, ?_⟩
      rw [← Except.ok.inj h]
      rfl

/-- Appending a nonempty byte sequence to the NULL handle (dya.h) yields a
buffer holding exactly those bytes, with size and capacity their count. -/
theorem happend_first {bs : List Nat} (h0 : bs ≠ []) (hW : bs.length < WORD) :
    dya_append (fun _ => true) none bs.length (some bs)
      = .ok (some ⟨bs.length, bs.length, bs⟩) := by
  have hl0 : bs.length ≠ 0 := by simpa using h0
  simp only [dya_append]
  rw [hreserve_grow_none (by omega) hW, bind_ok]
  rw [if_pos (Nat.le_refl _)]
  rw [show dya_size (some ⟨bs.length, 0, List.replicate bs.length junkByte⟩) = 0 from rfl]
  rw [List.take_length]
  have hmv : memmove (some ⟨bs.length, 0, List.replicate bs.length junkByte⟩) 0 bs
      = .ok (some ⟨bs.length, 0, bs⟩) := by
    simp only [memmove, List.length_replicate, Nat.zero_add, List.take_zero,
      List.drop_replicate, Nat.sub_self, List.replicate_zero, List.nil_append,
      List.append_nil, Nat.le_refl, if_pos]
  rw [hmv, bind_ok]
  rw [show dya_size (some ⟨bs.length, 0, bs⟩) = 0 from rfl, Nat.zero_add, mod_word_id hW]
  rfl

/-- Appending a nonempty byte sequence to a full buffer (size = capacity,
live bytes `b1`) in dya.h grows the buffer and leaves `b1 ++ b2` live. -/
theorem happend_second {b1 b2 : List Nat} (h2 : b2 ≠ []) (hH : b1.length + b2.length ≤ HALF) :
    ∃ p : Ptr,
      dya_append (fun _ => true) (some ⟨b1.length, b1.length, b1⟩) b2.length (some b2)
        = .ok p ∧
      dya_size p = b1.length + b2.length ∧ liveBytes p = b1 ++ b2 := by
  have hl0 : b2.length ≠ 0 := by simpa using h2
  have hsum : b1.length + b2.length < WORD := Nat.lt_of_le_of_lt hH half_lt_word
  set G := dya_max_ (b1.length + b2.length) ((b1.length * 2) % WORD) with hG
  have hG1 : b1.length + b2.length ≤ G := by rw [hG, dya_max_eq]; exact Nat.le_max_left _ _
  simp only [dya_append]
  have hres : dya_reserve (fun _ => true) (some ⟨b1.length, b1.length, b1⟩) b2.length
      = .ok (some ⟨G, b1.length, b1 ++ List.replicate (G - b1.length) junkByte⟩) := by
    unfold dya_reserve
    dsimp only
    rw [show dya_cap (some ⟨b1.length, b1.length, b1⟩ : Ptr) = b1.length from rfl,
      show dya_size (some ⟨b1.length, b1.length, b1⟩ : Ptr) = b1.length from rfl]
    rw [mod_word_id hsum, if_neg (by omega), ← hG]
    simp only [dya_realloc_, if_true]
    rw [bind_ok]
    rw [List.take_of_length_le (by omega)]
    rfl
  rw [hres, bind_ok]
  rw [if_pos (Nat.le_refl _)]
  rw [show dya_size (some ⟨G, b1.length, b1 ++ List.replicate (G - b1.length) junkByte⟩)
      = b1.length from rfl]
  rw [List.take_length]
  have hmv : memmove (some ⟨G, b1.length, b1 ++ List.replicate (G - b1.length) junkByte⟩)
      b1.length b2
      = .ok (some ⟨G, b1.length,
          b1 ++ b2 ++ List.replicate (G - (b1.length + b2.length)) junkByte⟩) := by
    simp only [memmove, List.length_append, List.length_replicate]
    rw [if_pos (by omega)]
    rw [List.take_left, List.drop_append, List.drop_replicate]
    rw [show G - b1.length - b2.length = G - (b1.length + b2.length) from by omega]
  rw [hmv, bind_ok]
  rw [show dya_size (some ⟨G, b1.length,
      b1 ++ b2 ++ List.replicate (G - (b1.length + b2.length)) junkByte⟩)
      = b1.length from rfl]
  rw [mod_word_id hsum]
  refine ⟨some ⟨G, b1.length + b2.length,
    b1 ++ b2 ++ List.replicate (G - (b1.length + b2.length)) junkByte⟩, rfl, rfl, ?_⟩
  show (b1 ++ b2 ++ List.replicate (G - (b1.length + b2.length)) junkByte).take
      (b1.length + b2.length) = b1 ++ b2
  rw [show b1 ++ b2 ++ List.replicate (G - (b1.length + b2.length)) junkByte
      = (b1 ++ b2) ++ List.replicate (G - (b1.length + b2.length)) junkByte from by
    simp [List.append_assoc]]
  exact List.take_left' (by simp)

end DyaH

/- ===== claim theorems ===== -/

open Model

/-- C1: the claim says the header read (`dya_header`, and through it the size
and capacity accessors) yields `(0, 0)` on a NULL handle and the stored
fields on a live handle.  In dyarray.c the null-guard ternary is inverted:
on NULL the function dereferences the NULL base pointer, and on a live
handle with stored capacity 5 and size 3 it returns the zero header (so its
`dya_size` reads 0 whatever is stored).  The `dya.h` variant's accessors do
return 0 on NULL as claimed. -/
theorem c1_header_read_inverted :
    Dya.dya_header_raw none = .error CErr.nullDeref ∧
    Dya.dya_header_raw (some ⟨5, 3, [0, 0, 0, 0, 0]⟩) = .ok ⟨0, 0⟩ ∧
    Dya.dya_size_raw (some ⟨5, 3, [0, 0, 0, 0, 0]⟩) = .ok 0 ∧
    DyaH.dya_size none = 0 ∧ DyaH.dya_cap none = 0 :=
  ⟨rfl, rfl, rfl, rfl, rfl⟩

/-- C2: the claim says capacity grows to
`max(current_size + additional, growth(current_capacity))` with
`growth(0) = 0`, starts at a 64-byte minimum on the first growth from empty,
multiplies by about 1.5x thereafter, and never shrinks.  The code diverges
on every point past the formula's shape: `dya_growth` takes
`dya_zmin(64, (cap*3+1)/2)` — the minimum, though its own comment announces
"1.5 growth factor, starting at 64 bytes" — so growth never exceeds 64
bytes (`dya_growth 100 = 64`, not about 150); the first growth from empty
never happens because `dya_reserve(NULL, 5)` dereferences NULL inside the
inverted `dya_header`; and on a live handle the header reads `(0, 0)`, so
reserving 1 byte on a buffer of stored capacity 100 reallocates it down to
capacity 1 — the capacity shrinks. -/
theorem c2_growth_policy_eval :
    Dya.dya_growth 100 = 64 ∧ Dya.dya_growth 1000 = 64 ∧ Dya.dya_growth 0 = 0 ∧
    Dya.dya_reserve (fun _ => true) none 5 = .error CErr.nullDeref ∧
    Dya.dya_reserve (fun _ => true) (some ⟨100, 50, List.replicate 100 7⟩) 1
      = .ok (some ⟨1, 0, [7]⟩) := by decide

/-- C3 counterexample: the claim says a failed (re)allocation surfaces an
`OutOfMemory` error value and leaves the original handle and bytes valid and
unchanged.  With an allocator that cannot satisfy the request, growing a
live 2-byte buffer does not produce any inspectable out-of-memory result:
the code offsets the allocator's NULL return by the header size and
immediately stores the header through that garbage pointer — undefined
behaviour (`CErr.wildPtr`), and the original handle is not handed back. -/
theorem c3_oom_counterexample :
    Dya.dya_reserve (fun _ => false) (some ⟨2, 2, [7, 7]⟩) 3 = .error CErr.wildPtr := by
  decide

/-- C3 amended: the code has no out-of-memory error channel at all.  On a
live handle, when growth is needed (`0 < k mod 2^64`) and the grown capacity
passes the assertion (`k mod 2^64 ≤ SIZE_MAX/2` — the header is read as
`(0,0)`, so the request alone determines the new capacity), a failing allocator leads
to the header being stored through `NULL + DYA_OFFSET` (undefined
behaviour, `CErr.wildPtr`); the original handle is not returned.  On the
NULL handle the inverted header read dereferences NULL before the allocator
is ever consulted, for every allocator. -/
theorem c3_oom_amended (b : Buf) (k : Nat) (hg : 0 < k % WORD) (hH : k % WORD ≤ HALF) :
    Dya.dya_reserve (fun _ => false) (some b) k = .error CErr.wildPtr ∧
    ∀ alloc : Alloc, Dya.dya_reserve alloc none k = .error CErr.nullDeref := by
  constructor
  · unfold Dya.dya_reserve
    rw [show Dya.dya_header (some b) = .ok ⟨0, 0⟩ from rfl, bind_ok]
    dsimp only
    rw [Nat.zero_add]
    rw [if_neg (by omega)]
    rw [Dya.growth_zero, Dya.dya_zmax_zero]
    rw [Dya.realloc_alloc_fail (by omega) hH rfl, bind_error]
  · intro alloc
    unfold Dya.dya_reserve
    rw [show Dya.dya_header (none : Ptr) = .error CErr.nullDeref from rfl, bind_error]

/-- C3 amended, witness: growing an empty live buffer by 5 bytes with an
allocator that always fails ends in the wild-pointer write, and reserving
on NULL crashes on the header read with that same failing allocator. -/
theorem c3_oom_amended_witness :
    Dya.dya_reserve (fun _ => false) (some ⟨0, 0, []⟩) 5 = .error CErr.wildPtr ∧
    ∀ alloc : Alloc, Dya.dya_reserve alloc none 5 = .error CErr.nullDeref :=
  c3_oom_amended ⟨0, 0, []⟩ 5 (by decide) (by decide)

/-- C4: the claim says any `n * row_size` product exceeding `SIZE_MAX/2` —
including products that overflow the word — fails with `CapacityOverflow`
before any allocation.  Neither variant does: dyarray.c's `dya_alloc`
dereferences NULL inside the inverted `dya_header` for every nonzero
`n, row_size` (the "Capacity overflow!" assertion is unreachable from it,
shown here for a non-wrapping product above the bound under an allocator
that can satisfy nothing), and dya.h's `dya_alloc` performs no overflow
check at all, so the product `2^32 * 2^32` wraps to 0 and silently yields
the NULL buffer. -/
theorem c4_overflow_eval :
    2 ^ 32 * 2 ^ 32 > HALF ∧
    Dya.dya_alloc (fun _ => true) (2 ^ 32) (2 ^ 32) = .error CErr.nullDeref ∧
    Dya.dya_alloc (fun _ => false) 1 (2 ^ 63) = .error CErr.nullDeref ∧
    DyaH.dya_alloc (fun _ => true) (2 ^ 32) (2 ^ 32) = .ok none := by decide

/-- C5 counterexample: the claim says appending byte sequences starting from
NULL yields a buffer holding their concatenation.  In dyarray.c the first
non-empty append already dereferences NULL: `dya_add_size` begins with
`dya_size(NULL)`, whose inverted header read crashes. -/
theorem c5_append_counterexample :
    Dya.dya_append (fun _ => true) none 1 (some [7]) = .error CErr.nullDeref := by decide

/-- C5 amended (the round trip holds in the dya.h variant): for all byte
sequences `b1`, `b2` whose combined length is within `SIZE_MAX/2` (longer
buffers violate the spec's own capacity bound and cannot exist in memory),
appending `b1` then `b2` to the NULL handle succeeds and yields a buffer
whose size is `len b1 + len b2` and whose live bytes are exactly
`b1 ++ b2`. -/
theorem c5_append_round_trip (b1 b2 : List Nat) (hH : b1.length + b2.length ≤ HALF) :
    ∃ p : Ptr,
      (DyaH.dya_append (fun _ => true) none b1.length (some b1) >>= fun a =>
        DyaH.dya_append (fun _ => true) a b2.length (some b2)) = .ok p ∧
      DyaH.dya_size p = b1.length + b2.length ∧ liveBytes p = b1 ++ b2 := by
  have hsum : b1.length + b2.length < WORD := Nat.lt_of_le_of_lt hH half_lt_word
  by_cases h1 : b1 = []
  · subst h1
    rw [show DyaH.dya_append (fun _ => true) none ([] : List Nat).length (some [])
        = .ok none from rfl, bind_ok]
    by_cases hb2 : b2 = []
    · subst hb2
      exact ⟨none, rfl, rfl, rfl⟩
    · rw [DyaH.happend_first hb2 (by simpa using hsum)]
      exact ⟨some ⟨b2.length, b2.length, b2⟩, rfl,
        by simp [DyaH.dya_size], by simp [liveBytes]⟩
  · rw [DyaH.happend_first h1 (by omega), bind_ok]
    by_cases hb2 : b2 = []
    · subst hb2
      simp only [List.length_nil]
      simp only [DyaH.dya_append]
      rw [DyaH.hreserve_noop (by
        rw [show DyaH.dya_size (some ⟨b1.length, b1.length, b1⟩ : Ptr) = b1.length from rfl,
          show DyaH.dya_cap (some ⟨b1.length, b1.length, b1⟩ : Ptr) = b1.length from rfl,
          Nat.add_zero, mod_word_id (by omega)]), bind_ok]
      rw [if_pos (Nat.zero_le _)]
      rw [show DyaH.dya_size (some ⟨b1.length, b1.length, b1⟩ : Ptr) = b1.length from rfl]
      have hmv : memmove (some ⟨b1.length, b1.length, b1⟩) b1.length (List.take 0 [])
          = .ok (some ⟨b1.length, b1.length, b1⟩) := by
        simp only [memmove, List.take_nil, List.length_nil, Nat.add_zero, List.append_nil,
          List.take_append_drop, Nat.le_refl, if_pos]
      rw [hmv, bind_ok]
      rw [show DyaH.dya_size (some ⟨b1.length, b1.length, b1⟩ : Ptr) = b1.length from rfl,
        Nat.add_zero, mod_word_id (by omega)]
      refine ⟨some ⟨b1.length, b1.length, b1⟩, rfl,
        by simp [DyaH.dya_size], by simp [liveBytes]⟩
    · exact DyaH.happend_second hb2 hH

/-- C5 witness: appending `[1, 2]` then `[3, 4, 5]` from NULL in the dya.h
variant gives size 5 and bytes `[1, 2, 3, 4, 5]`. -/
theorem c5_append_round_trip_witness :
    ([1, 2] : List Nat).length + ([3, 4, 5] : List Nat).length ≤ HALF ∧
    ∃ p : Ptr,
      (DyaH.dya_append (fun _ => true) none ([1, 2] : List Nat).length (some [1, 2])
          >>= fun a =>
        DyaH.dya_append (fun _ => true) a ([3, 4, 5] : List Nat).length (some [3, 4, 5]))
        = .ok p ∧
      DyaH.dya_size p = ([1, 2] : List Nat).length + ([3, 4, 5] : List Nat).length ∧
      liveBytes p = [1, 2] ++ [3, 4, 5] :=
  ⟨by decide, c5_append_round_trip [1, 2] [3, 4, 5] (by decide)⟩

/-- C6 counterexample: the claim says `allocate_zeroed(3, 4)` yields a
zero-filled buffer of size 12.  dyarray.c's `dya_alloc(3, 4)` never builds a
buffer: its `dya_set_size` on the NULL handle starts with the inverted
header read, which dereferences NULL. -/
theorem c6_alloc_counterexample :
    Dya.dya_alloc (fun _ => true) 3 4 = .error CErr.nullDeref := by decide

/-- C6 amended: the claimed behaviour holds of the dya.h variant — for
`n * row_size` within the overflow bound it returns the NULL handle when the
product is zero and otherwise a buffer with size = capacity = `n * row_size`
all of whose data bytes are zero (the zeroes coming from the explicit
memset: the modelled allocator hands out nonzero junk).  dyarray.c's
`dya_alloc` returns NULL when `n` or `row_size` is zero but dereferences
NULL for any nonzero arguments, whatever the allocator. -/
theorem c6_alloc_zeroed (n rs : Nat) (hH : n * rs ≤ HALF) :
    DyaH.dya_alloc (fun _ => true) n rs
      = (if n * rs = 0 then .ok none
         else .ok (some ⟨n * rs, n * rs, List.replicate (n * rs) 0⟩)) ∧
    (∀ alloc : Alloc, n = 0 ∨ rs = 0 → Dya.dya_alloc alloc n rs = .ok none) ∧
    (∀ alloc : Alloc, n ≠ 0 → rs ≠ 0 → Dya.dya_alloc alloc n rs = .error CErr.nullDeref) := by
  have hlt : n * rs < WORD := Nat.lt_of_le_of_lt hH half_lt_word
  refine ⟨?_, ?_, ?_⟩
  · by_cases h0 : n * rs = 0
    · unfold DyaH.dya_alloc
      rw [h0]
      decide
    · rw [if_neg h0]
      unfold DyaH.dya_alloc
      rw [mod_word_id hlt]
      rw [DyaH.hreserve_grow_none (by omega) hlt, bind_ok]
      rw [show DyaH.dya_cap (some ⟨n * rs, 0, List.replicate (n * rs) junkByte⟩)
          = n * rs from rfl]
      rw [show DyaH.dya_set_size (some ⟨n * rs, 0, List.replicate (n * rs) junkByte⟩) (n * rs)
          = some ⟨n * rs, n * rs, List.replicate (n * rs) junkByte⟩ from rfl]
      dsimp only
      rw [show DyaH.dya_size (some ⟨n * rs, n * rs, List.replicate (n * rs) junkByte⟩)
          = n * rs from rfl]
      simp only [memset_zero, List.length_replicate, Nat.le_refl, if_pos,
        List.drop_replicate, Nat.sub_self, List.replicate_zero, List.append_nil]
  · intro alloc h
    unfold Dya.dya_alloc
    rw [if_pos h]
    rfl
  · intro alloc hn hr
    unfold Dya.dya_alloc
    rw [if_neg (by simp [hn, hr])]
    rfl

/-- C6 witness: `allocate_zeroed(3, 4)` in the dya.h variant yields a buffer
of size 12 and capacity 12 whose 12 data bytes are all zero, and dyarray.c's
`dya_alloc(3, 4)` dereferences NULL. -/
theorem c6_alloc_zeroed_witness :
    DyaH.dya_alloc (fun _ => true) 3 4
      = (if 3 * 4 = 0 then .ok none
         else .ok (some ⟨3 * 4, 3 * 4, List.replicate (3 * 4) 0⟩)) ∧
    Dya.dya_alloc (fun _ => true) 3 4 = .error CErr.nullDeref :=
  ⟨(c6_alloc_zeroed 3 4 (by decide)).1,
   (c6_alloc_zeroed 3 4 (by decide)).2.2 (fun _ => true) (by decide) (by decide)⟩

/-- C7 counterexample: the claim says a successful `reserve(h, k)` leaves
`capacity >= size + k` with the size unchanged, and is a no-op when
`size + k` already fits.  Both variants refute it.  dyarray.c: on a live
buffer with stored capacity 10 and size 5, `reserve(h, 3)` — where
`5 + 3 <= 10` should make it a no-op — reads the zero header, reallocates
down to 3 bytes and stores capacity 3 < 5 + 3 with the size reset to 0.
dya.h: for `k = 2^64 - 5` the guard's sum wraps to 0, reserve succeeds as a
no-op, and the capacity 10 is far below `size + k`. -/
theorem c7_reserve_counterexample :
    (Dya.dya_reserve (fun _ => true) (some ⟨10, 5, List.replicate 10 7⟩) 3
        = .ok (some ⟨3, 0, [7, 7, 7]⟩) ∧
      5 + 3 ≤ 10 ∧ capOf (some ⟨3, 0, [7, 7, 7]⟩) < 5 + 3) ∧
    (DyaH.dya_reserve (fun _ => true) (some ⟨10, 5, List.replicate 10 0⟩) (2 ^ 64 - 5)
        = .ok (some ⟨10, 5, List.replicate 10 0⟩) ∧
      DyaH.dya_cap (some ⟨10, 5, List.replicate 10 0⟩)
        < DyaH.dya_size (some ⟨10, 5, List.replicate 10 0⟩) + (2 ^ 64 - 5)) := by decide

/-- C7 amended: in the dya.h variant, for any handle and any added capacity
`k` whose true sum `size + k` does not wrap modulo `2^64`, a successful
`dya_reserve` leaves at least `size + k` capacity with the size unchanged,
and is a no-op returning the very same handle when `size + k` already fits
the capacity.  (When the sum wraps, and in dyarray.c generally, the
counterexample shows the claim fails.) -/
theorem c7_reserve_monotone (alloc : Alloc) (arr p : Ptr) (k : Nat)
    (hw : DyaH.dya_size arr + k < WORD)
    (h : DyaH.dya_reserve alloc arr k = .ok p) :
    (DyaH.dya_size arr + k ≤ DyaH.dya_cap p ∧ DyaH.dya_size p = DyaH.dya_size arr) ∧
    (DyaH.dya_size arr + k ≤ DyaH.dya_cap arr → p = arr) := by
  have hmod : (DyaH.dya_size arr + k) % WORD = DyaH.dya_size arr + k := mod_word_id hw
  rcases DyaH.hreserve_ok_cases h with ⟨hle, rfl⟩ | ⟨hlt, d, rfl⟩
  · rw [hmod] at hle
    exact ⟨⟨hle, rfl⟩, fun _ => rfl⟩
  · rw [hmod] at hlt
    have hmax : (DyaH.dya_size arr + k) % WORD
        ≤ DyaH.dya_max_ ((DyaH.dya_size arr + k) % WORD) ((DyaH.dya_cap arr * 2) % WORD) := by
      rw [DyaH.dya_max_eq]; exact Nat.le_max_left _ _
    refine ⟨⟨?_, rfl⟩, fun hcon => absurd hcon (by omega)⟩
    show DyaH.dya_size arr + k
      ≤ DyaH.dya_max_ ((DyaH.dya_size arr + k) % WORD) ((DyaH.dya_cap arr * 2) % WORD)
    omega

/-- C7 amended, witness: reserving 5 bytes on the NULL handle in dya.h
succeeds with capacity 5 ≥ 0 + 5 and size still 0. -/
theorem c7_reserve_monotone_witness :
    (DyaH.dya_size (none : Ptr) + 5 ≤ DyaH.dya_cap (some ⟨5, 0, List.replicate 5 junkByte⟩) ∧
      DyaH.dya_size (some ⟨5, 0, List.replicate 5 junkByte⟩ : Ptr) = DyaH.dya_size (none : Ptr)) ∧
    (DyaH.dya_size (none : Ptr) + 5 ≤ DyaH.dya_cap (none : Ptr)
      → (some ⟨5, 0, List.replicate 5 junkByte⟩ : Ptr) = none) :=
  c7_reserve_monotone (fun _ => true) none (some ⟨5, 0, List.replicate 5 junkByte⟩) 5
    (by decide) (by decide)

/-- C8: the claim says the stored capacity never decreases across a sequence
of successful mutating calls.  One successful call refutes it: on a live
buffer with stored capacity 10 and size 5, `dya_reserve(h, 3)` reads the
zero header, treats the buffer as empty, reallocates to 3 bytes and stores
capacity 3 — the capacity shrinks from 10 to 3 (and the size is reset to
0), contradicting the function's own comment "Reserve capacity for at least
`add_capacity` additional bytes." -/
theorem c8_cap_shrink_eval :
    Dya.run (fun _ => true) (some ⟨10, 5, List.replicate 10 7⟩) [.reserve 3]
      = .ok (some ⟨3, 0, [7, 7, 7]⟩) ∧
    capOf (some ⟨3, 0, [7, 7, 7]⟩) < capOf (some ⟨10, 5, List.replicate 10 7⟩) := by decide

/-- C9: the claim says `add_size(h, delta)` is equivalent to
`set_size(h, size + delta)` for non-negative results and fails with
`Underflow` for negative ones.  The code is written as exactly that call —
`dya_set_size(arr, dya_size(arr) + (size_t)add_size)` — but `dya_size`
reads 0 through the inverted header for every live handle (and dereferences
NULL for the NULL handle), so the equivalence with the stored size fails:
on a live buffer of stored size 2, `add_size(h, 0)` silently truncates the
size to 0, while `set_size(h, 2 + 0)` aborts at the capacity assertion; on
NULL, `add_size(h, 1)` crashes instead of failing with any error kind. -/
theorem c9_add_size_eval :
    Dya.dya_add_size (fun _ => true) (some ⟨4, 2, [9, 9, 1, 1]⟩) 0
      = .ok (some ⟨4, 0, [9, 9, 1, 1]⟩) ∧
    Dya.dya_set_size (fun _ => true) (some ⟨4, 2, [9, 9, 1, 1]⟩) (2 + 0)
      = .error CErr.assertFail ∧
    Dya.dya_add_size (fun _ => true) none 1 = .error CErr.nullDeref := by decide

/-- C10: appending from a NULL source pointer returns the handle unchanged —
no growth, no size update, no byte modification — whatever the byte count,
in both variants (`if (!other || !size) return arr;` in dyarray.c and
`if (!other) return arr;` in dya.h test the source pointer first, before
any header access). -/
theorem c10_append_null_source (alloc : Alloc) (arr : Ptr) (sz : Nat) :
    Dya.dya_append alloc arr sz none = .ok arr ∧
    DyaH.dya_append alloc arr sz none = .ok arr :=
  ⟨rfl, rfl⟩
